import Mathlib

/-!
Shallow embedding of the data-harvester handler in `main.py`.

The handler `chronicle_harvester_agent` constructs a storage client,
issues one HTTP GET to a fixed URL, parses the JSON body, takes the
first three elements, annotates each with three metadata fields, and
uploads each as a JSON object; the two `except` clauses turn failures
into an error mapping with status code 500.

External effects (the fetch outcome, the clock readings, the uuid hex
strings and storage failures) are supplied by an `Env` oracle.  Python
dictionaries are association lists whose assignment replaces the first
matching key in place.  A stored object records its path and its
content; `json.dumps` followed by parsing round-trips, so the content
is kept as the JSON value itself.
-/

/-- JSON values, as produced by `response.json()`.  Numbers are kept
abstract as integers; no claim depends on numeric behaviour. -/
inductive Json where
  | null : Json
  | bool (b : Bool) : Json
  | num (n : Int) : Json
  | str (s : String) : Json
  | arr (elems : List Json) : Json
  | obj (fields : List (String × Json)) : Json

/-- Whether a JSON value is a mapping (a Python `dict`). -/
def Json.isObj : Json → Bool
  | .obj _ => true
  | _ => false

/-- Outcome of `requests.get(MOCK_DATA_URL)` followed by
`response.raise_for_status()` and `response.json()`: either the request
layer raised (transport error or non-2xx status), or a 2xx response
whose body parse either failed or produced a JSON value. -/
inductive FetchOutcome where
  | requestError (msg : String) : FetchOutcome
  | body (parsed : Except String Json) : FetchOutcome

/-- Oracle for the external world during one invocation: whether
`storage.Client` construction raises, the fetch outcome, the
`datetime.now().isoformat()` readings taken in the annotation loop and
inside `ingest_data_entry`, the `uuid.uuid4().hex` strings, and whether
`blob.upload_from_string` raises for the i-th processed entry. -/
structure Env where
  clientFail : Option String
  fetch : FetchOutcome
  annotClock : Nat → String
  ingestClock : Nat → String
  uuidHex : Nat → String
  uploadFail : Nat → Option String

/-- The fixed source endpoint, `MOCK_DATA_URL` in `main.py`. -/
def MOCK_DATA_URL : String := "https://jsonplaceholder.typicode.com/posts"

/-- Python slicing `h[:8]` on a string: the first eight characters. -/
def hex8 (h : String) : String := String.mk (h.data.take 8)

/-- The object key built in `ingest_data_entry`:
`f"raw_data/{timestamp}-{uuid.uuid4().hex[:8]}.json"`. -/
def file_name (timestamp hexStr : String) : String :=
  "raw_data/" ++ timestamp ++ "-" ++ hex8 hexStr ++ ".json"

/-- A stored object: its key in the bucket and its content.  The
uploaded bytes are `json.dumps(content, indent=2)`, which parses back
to `content`, so the JSON value stands for the stored body. -/
structure StoredObject where
  path : String
  content : Json

/-- Model of `ingest_data_entry(entry_data, client)`: builds the object key from
a fresh timestamp and a uuid suffix, uploads the serialized entry, and
returns the key.  A storage-write failure raises (modelled by the
`uploadFail` oracle); nothing is stored in that case. -/
def ingest_data_entry (env : Env) (i : Nat) (entry_data : Json) :
    Except String (String × StoredObject) :=
  let timestamp := env.ingestClock i
  let fname := file_name timestamp (env.uuidHex i)
  match env.uploadFail i with
  | some msg => .error msg
  | none => .ok (fname, { path := fname, content := entry_data })

/-- Python dictionary assignment `d[k] = v` on an association list:
replace the value at the first occurrence of `k`, else append. -/
def setKey : List (String × Json) → String → Json → List (String × Json)
  | [], k, v => [(k, v)]
  | (k', v') :: rest, k, v =>
    if k' = k then (k', v) :: rest else (k', v') :: setKey rest k v

/-- The three assignments of the annotation step, in source order:
`harvest_timestamp`, then `source_url`, then `agent`. -/
def annotFields (ts : String) (fields : List (String × Json)) :
    List (String × Json) :=
  setKey (setKey (setKey fields "harvest_timestamp" (.str ts))
      "source_url" (.str MOCK_DATA_URL))
    "agent" (.str "ChronicleHarvester")

/-- Annotating one loop entry.  Item assignment on a non-mapping raises
`TypeError`, as in Python. -/
def annotate (ts : String) : Json → Except String Json
  | .obj fields => .ok (.obj (annotFields ts fields))
  | _ => .error "TypeError: object does not support item assignment"

/-- Python `mock_data_entries[:3]` followed by iteration: slicing a
list yields its first three elements; slicing a string yields its
first three characters, iterated as one-character strings; every other
JSON value raises `TypeError`. -/
def sliceThree : Json → Except String (List Json)
  | .arr xs => .ok (xs.take 3)
  | .str s => .ok ((s.data.take 3).map fun c => .str (String.singleton c))
  | _ => .error "TypeError: value does not support slicing"

/-- The `for entry in mock_data_entries[:3]` loop, started at index
`i`: annotate each entry, ingest it, and collect the returned file
names.  The result pairs the Python control flow (the list of uploaded
file names, or the first raised exception) with the objects actually
persisted before that point. -/
def harvestLoop (env : Env) : Nat → List Json →
    Except String (List String) × List StoredObject
  | _, [] => (.ok [], [])
  | i, entry :: rest =>
    match annotate (env.annotClock i) entry with
    | .error e => (.error e, [])
    | .ok annotated =>
      match ingest_data_entry env i annotated with
      | .error e => (.error e, [])
      | .ok (fname, stObj) =>
        match harvestLoop env (i + 1) rest with
        | (.ok files, stored) => (.ok (fname :: files), stObj :: stored)
        | (.error e, stored) => (.error e, stObj :: stored)

/-- The mapping-and-code pair returned by the handler. -/
abbrev RetValue := List (String × Json) × Nat

/-- Model of `chronicle_harvester_agent(request)`.  The request only triggers
execution.  `storage.Client` is constructed before the `try` block, so
a failure there propagates out of the handler (`Except.error`); inside
the `try`, a `RequestException` yields the first error return and any
other exception the second, both with status code 500.  The result
also carries the objects persisted during the run. -/
def chronicle_harvester_agent {Req : Type} (request : Req) (env : Env) :
    Except String (RetValue × List StoredObject) :=
  match env.clientFail with
  | some msg => .error msg
  | none =>
    match env.fetch with
    | .requestError msg =>
      .ok (([("status", .str "error"),
             ("message", .str ("HTTP request failed: " ++ msg))], 500), [])
    | .body (.error msg) =>
      .ok (([("status", .str "error"),
             ("message", .str ("An unexpected error occurred: " ++ msg))], 500), [])
    | .body (.ok j) =>
      match sliceThree j with
      | .error msg =>
        .ok (([("status", .str "error"),
               ("message", .str ("An unexpected error occurred: " ++ msg))], 500), [])
      | .ok entries =>
        match harvestLoop env 0 entries with
        | (.ok uploaded_files, stored) =>
          .ok (([("status", .str "success"),
                 ("uploaded_files", .arr (uploaded_files.map Json.str))], 200), stored)
        | (.error msg, stored) =>
          .ok (([("status", .str "error"),
                 ("message", .str ("An unexpected error occurred: " ++ msg))], 500), stored)

/-- The file names the loop returns for entries starting at index `i`. -/
def expectedPaths (env : Env) : Nat → List Json → List String
  | _, [] => []
  | i, _ :: rest =>
    file_name (env.ingestClock i) (env.uuidHex i) :: expectedPaths env (i + 1) rest

/-- The annotated form of the entry processed at index `i` (identity on
non-mappings, which never reach storage). -/
def annotateObj (env : Env) (i : Nat) : Json → Json
  | .obj fields => .obj (annotFields (env.annotClock i) fields)
  | e => e

/-- The objects the loop persists for entries starting at index `i`. -/
def expectedStored (env : Env) : Nat → List Json → List StoredObject
  | _, [] => []
  | i, e :: rest =>
    { path := file_name (env.ingestClock i) (env.uuidHex i),
      content := annotateObj env i e } :: expectedStored env (i + 1) rest

/-- Lowercase hexadecimal digit, the alphabet of `uuid.uuid4().hex`. -/
def isLowerHexChar (c : Char) : Bool :=
  ('0' ≤ c && c ≤ '9') || ('a' ≤ c && c ≤ 'f')

/-- Mock feed of four mappings used to witness the success path. -/
def esA : List Json :=
  [Json.obj [("id", Json.num 1)], Json.obj [("title", Json.str "a")],
   Json.obj [], Json.obj [("x", Json.null)]]

/-- Environment for the success-path witnesses: a healthy fetch of
`esA`, deterministic clocks and uuid hex, no storage failures. -/
def envA : Env :=
  { clientFail := none
    fetch := .body (.ok (.arr esA))
    annotClock := fun i => "2025-06-23T10:00:0" ++ toString i
    ingestClock := fun i => "2025-06-23T10:00:1" ++ toString i
    uuidHex := fun _ => "00112233445566778899aabbccddeeff"
    uploadFail := fun _ => none }

/-- Environment in which the fetch fails at the request layer. -/
def envReqErr : Env :=
  { clientFail := none
    fetch := .requestError "500 Server Error"
    annotClock := fun _ => ""
    ingestClock := fun _ => ""
    uuidHex := fun _ => ""
    uploadFail := fun _ => none }

/-- Environment in which `storage.Client` construction raises. -/
def envClientFail : Env :=
  { clientFail := some "storage client construction failed"
    fetch := .requestError "irrelevant"
    annotClock := fun _ => ""
    ingestClock := fun _ => ""
    uuidHex := fun _ => ""
    uploadFail := fun _ => none }

/-- Feed of three mappings used to witness the partial-failure path. -/
def esB : List Json :=
  [Json.obj [("id", Json.num 1)], Json.obj [("id", Json.num 2)],
   Json.obj [("id", Json.num 3)]]

/-- Environment whose storage write fails on the second selected
record. -/
def envB : Env :=
  { clientFail := none
    fetch := .body (.ok (.arr esB))
    annotClock := fun i => "2025-06-23T11:00:0" ++ toString i
    ingestClock := fun i => "2025-06-23T11:00:1" ++ toString i
    uuidHex := fun _ => "00112233445566778899aabbccddeeff"
    uploadFail := fun i => if i = 1 then some "upload failed" else none }

/-- Environment whose fetch succeeds with body the empty JSON string. -/
def envEmptyStr : Env :=
  { clientFail := none
    fetch := .body (.ok (.str ""))
    annotClock := fun _ => ""
    ingestClock := fun _ => ""
    uuidHex := fun _ => ""
    uploadFail := fun _ => none }

/-- JSON bodies whose processing raises inside the loop or at the
slice: a non-array, non-string value; a nonempty string (its
characters are not mappings); or an array with a non-mapping among its
first three elements. -/
def malformedBody : Json → Bool
  | .arr es => (es.take 3).any (fun e => !e.isObj)
  | .str s => !s.data.isEmpty
  | .obj _ => true
  | .null => true
  | .bool _ => true
  | .num _ => true

/-- Environment whose fetch succeeds with body a JSON object (a
mapping, which Python cannot slice). -/
def envObjBody : Env :=
  { clientFail := none
    fetch := .body (.ok (.obj []))
    annotClock := fun _ => ""
    ingestClock := fun _ => ""
    uuidHex := fun _ => ""
    uploadFail := fun _ => none }

theorem expectedPaths_length (env : Env) :
    ∀ (es : List Json) (i : Nat), (expectedPaths env i es).length = es.length := by
  intro es
  induction es with
  | nil => intro i; rfl
  | cons e rest ih => intro i; simp [expectedPaths, ih]

theorem expectedStored_length (env : Env) :
    ∀ (es : List Json) (i : Nat), (expectedStored env i es).length = es.length := by
  intro es
  induction es with
  | nil => intro i; rfl
  | cons e rest ih => intro i; simp [expectedStored, ih]

theorem expectedPaths_eq_range_map (env : Env) :
    ∀ (es : List Json) (i : Nat),
      expectedPaths env i es =
        (List.range es.length).map
          (fun j => file_name (env.ingestClock (i + j)) (env.uuidHex (i + j))) := by
  intro es
  induction es with
  | nil => intro i; rfl
  | cons e rest ih =>
    intro i
    simp only [expectedPaths, List.length_cons, List.range_succ_eq_map,
      List.map_cons, List.map_map, ih (i + 1)]
    congr 1
    apply List.map_congr_left
    intro j _
    simp only [Function.comp_apply]
    have h : i + 1 + j = i + (j + 1) := by omega
    rw [h]

theorem expectedStored_append (env : Env) :
    ∀ (as bs : List Json) (i : Nat),
      expectedStored env i (as ++ bs) =
        expectedStored env i as ++ expectedStored env (i + as.length) bs := by
  intro as
  induction as with
  | nil => intro bs i; simp [expectedStored]
  | cons a rest ih =>
    intro bs i
    have h1 : i + 1 + rest.length = i + (rest.length + 1) := by omega
    simp only [List.cons_append, expectedStored, List.append_eq, ih bs (i + 1),
      List.length_cons, h1]

theorem harvestLoop_ok (env : Env) :
    ∀ (es : List Json) (i : Nat),
      (∀ e ∈ es, e.isObj = true) →
      (∀ j, j < es.length → env.uploadFail (i + j) = none) →
      harvestLoop env i es = (.ok (expectedPaths env i es), expectedStored env i es) := by
  intro es
  induction es with
  | nil => intro i _ _; rfl
  | cons e rest ih =>
    intro i hobj hup
    obtain ⟨fields, rfl⟩ : ∃ fields, e = Json.obj fields := by
      have := hobj e (List.mem_cons_self e rest)
      cases e <;> simp [Json.isObj] at this ⊢
    have hup0 : env.uploadFail i = none := by
      have := hup 0 (Nat.succ_pos _)
      simpa using this
    have hrest : harvestLoop env (i + 1) rest =
        (.ok (expectedPaths env (i + 1) rest), expectedStored env (i + 1) rest) := by
      apply ih
      · intro x hx; exact hobj x (List.mem_cons_of_mem _ hx)
      · intro j hj
        have := hup (j + 1) (by simpa using Nat.succ_lt_succ hj)
        have heq : i + (j + 1) = i + 1 + j := by omega
        rwa [heq] at this
    simp [harvestLoop, annotate, ingest_data_entry, hup0, hrest,
      expectedPaths, expectedStored, annotateObj]

theorem expectedPaths_eq_map_path (env : Env) :
    ∀ (es : List Json) (i : Nat),
      expectedPaths env i es = (expectedStored env i es).map StoredObject.path := by
  intro es
  induction es with
  | nil => intro i; rfl
  | cons e rest ih => intro i; simp [expectedPaths, expectedStored, ih]

theorem harvestLoop_files (env : Env) :
    ∀ (es : List Json) (i : Nat) (files : List String) (stored : List StoredObject),
      harvestLoop env i es = (.ok files, stored) →
      files = stored.map StoredObject.path ∧ stored.length = es.length := by
  intro es
  induction es with
  | nil =>
    intro i files stored h
    simp only [harvestLoop, Prod.mk.injEq] at h
    obtain ⟨h1, h2⟩ := h
    cases h1
    cases h2
    simp
  | cons e rest ih =>
    intro i files stored h
    cases e with
    | obj fields =>
      simp only [harvestLoop, annotate, ingest_data_entry] at h
      cases hup : env.uploadFail i with
      | some m => rw [hup] at h; simp at h
      | none =>
        rw [hup] at h
        obtain ⟨⟨r, st⟩, hrec⟩ : ∃ p, harvestLoop env (i + 1) rest = p := ⟨_, rfl⟩
        rw [hrec] at h
        cases r with
        | error msg => simp at h
        | ok fs =>
          simp only [Prod.mk.injEq, Except.ok.injEq] at h
          obtain ⟨h1, h2⟩ := h
          cases h1
          cases h2
          obtain ⟨hf, hl⟩ := ih (i + 1) fs st hrec
          simp [hf, hl]
    | null => simp [harvestLoop, annotate] at h
    | bool b => simp [harvestLoop, annotate] at h
    | num n => simp [harvestLoop, annotate] at h
    | str s => simp [harvestLoop, annotate] at h
    | arr xs => simp [harvestLoop, annotate] at h

theorem harvestLoop_fail (env : Env) :
    ∀ (pre : List Json) (e : Json) (post : List Json) (i : Nat) (m : String),
      (∀ x ∈ pre, x.isObj = true) →
      (∀ j, j < pre.length → env.uploadFail (i + j) = none) →
      (e.isObj = false ∨ env.uploadFail (i + pre.length) = some m) →
      ∃ m2, harvestLoop env i (pre ++ e :: post) =
        (.error m2, expectedStored env i pre) := by
  intro pre
  induction pre with
  | nil =>
    intro e post i m _ _ hfail
    cases e with
    | obj fields =>
      rcases hfail with hobj | hup
      · simp [Json.isObj] at hobj
      · have hupi : env.uploadFail i = some m := by simpa using hup
        exact ⟨m, by simp [harvestLoop, annotate, ingest_data_entry, hupi, expectedStored]⟩
    | null => exact ⟨"TypeError: object does not support item assignment", by simp [harvestLoop, annotate, expectedStored]⟩
    | bool b => exact ⟨"TypeError: object does not support item assignment", by simp [harvestLoop, annotate, expectedStored]⟩
    | num n => exact ⟨"TypeError: object does not support item assignment", by simp [harvestLoop, annotate, expectedStored]⟩
    | str s => exact ⟨"TypeError: object does not support item assignment", by simp [harvestLoop, annotate, expectedStored]⟩
    | arr xs => exact ⟨"TypeError: object does not support item assignment", by simp [harvestLoop, annotate, expectedStored]⟩
  | cons p prest ih =>
    intro e post i m hobj hup hfail
    obtain ⟨pfields, rfl⟩ : ∃ f, p = Json.obj f := by
      have := hobj p (List.mem_cons_self p prest)
      cases p <;> simp [Json.isObj] at this ⊢
    have hup0 : env.uploadFail i = none := by
      have := hup 0 (Nat.succ_pos _)
      simpa using this
    have hfail2 : e.isObj = false ∨ env.uploadFail (i + 1 + prest.length) = some m := by
      rcases hfail with h | h
      · exact Or.inl h
      · refine Or.inr ?_
        have heq2 : i + (Json.obj pfields :: prest).length = i + 1 + prest.length := by
          simp; omega
        rwa [heq2] at h
    obtain ⟨m2, hrec⟩ := ih e post (i + 1) m
      (fun x hx => hobj x (List.mem_cons_of_mem _ hx))
      (by
        intro j hj
        have := hup (j + 1) (by simpa using Nat.succ_lt_succ hj)
        have heq : i + (j + 1) = i + 1 + j := by omega
        rwa [heq] at this)
      hfail2
    refine ⟨m2, ?_⟩
    simp [harvestLoop, annotate, ingest_data_entry, hup0, hrec, expectedStored, annotateObj]

theorem harvestLoop_err_of_nonobj (env : Env) :
    ∀ (es : List Json) (i : Nat), (∃ e ∈ es, e.isObj = false) →
      ∃ m stored, harvestLoop env i es = (.error m, stored) := by
  intro es
  induction es with
  | nil => intro i h; simp at h
  | cons e rest ih =>
    intro i h
    cases e with
    | obj fields =>
      have hrest : ∃ x ∈ rest, x.isObj = false := by
        rcases h with ⟨x, hx, hxf⟩
        rcases List.mem_cons.mp hx with rfl | hx2
        · simp [Json.isObj] at hxf
        · exact ⟨x, hx2, hxf⟩
      cases hup : env.uploadFail i with
      | some m =>
        exact ⟨m, [], by simp [harvestLoop, annotate, ingest_data_entry, hup]⟩
      | none =>
        obtain ⟨m, stored, hrec⟩ := ih (i + 1) hrest
        exact ⟨m, ⟨file_name (env.ingestClock i) (env.uuidHex i),
            Json.obj (annotFields (env.annotClock i) fields)⟩ :: stored,
          by simp [harvestLoop, annotate, ingest_data_entry, hup, hrec]⟩
    | null => exact ⟨"TypeError: object does not support item assignment", [], by simp [harvestLoop, annotate]⟩
    | bool b => exact ⟨"TypeError: object does not support item assignment", [], by simp [harvestLoop, annotate]⟩
    | num n => exact ⟨"TypeError: object does not support item assignment", [], by simp [harvestLoop, annotate]⟩
    | str s => exact ⟨"TypeError: object does not support item assignment", [], by simp [harvestLoop, annotate]⟩
    | arr xs => exact ⟨"TypeError: object does not support item assignment", [], by simp [harvestLoop, annotate]⟩

theorem setKey_absent (k : String) (v : Json) :
    ∀ (l : List (String × Json)), k ∉ l.map Prod.fst →
      setKey l k v = l ++ [(k, v)] := by
  intro l
  induction l with
  | nil => intro _; rfl
  | cons p rest ih =>
    intro hk
    obtain ⟨k', v'⟩ := p
    simp only [List.map_cons, List.mem_cons] at hk
    push_neg at hk
    have hne : ¬ k' = k := by
      intro h
      exact hk.1 h.symm
    simp only [setKey, if_neg hne, List.cons_append]
    rw [ih hk.2]

theorem lookup_setKey_self (k : String) (v : Json) :
    ∀ (l : List (String × Json)), List.lookup k (setKey l k v) = some v := by
  intro l
  induction l with
  | nil => simp [setKey, List.lookup]
  | cons p rest ih =>
    obtain ⟨k', v'⟩ := p
    by_cases h : k' = k
    · subst h
      simp [setKey, List.lookup]
    · simp only [setKey, if_neg h, List.lookup]
      have : (k == k') = false := by
        simp only [beq_eq_false_iff_ne, ne_eq]
        intro hh
        exact h hh.symm
      rw [this]
      exact ih

theorem lookup_setKey_ne (k k' : String) (v : Json) (hne : k' ≠ k) :
    ∀ (l : List (String × Json)),
      List.lookup k' (setKey l k v) = List.lookup k' l := by
  intro l
  induction l with
  | nil =>
    have hb : (k' == k) = false := by
      simp only [beq_eq_false_iff_ne, ne_eq]
      exact hne
    simp [setKey, List.lookup, hb]
  | cons p rest ih =>
    obtain ⟨k0, v0⟩ := p
    by_cases h : k0 = k
    · subst h
      simp only [setKey, if_pos rfl, List.lookup]
      have : (k' == k0) = false := by
        simp only [beq_eq_false_iff_ne, ne_eq]
        exact hne
      rw [this]
    · simp only [setKey, if_neg h, List.lookup]
      by_cases h2 : k' = k0
      · subst h2
        simp
      · have hb : (k' == k0) = false := by
          simp only [beq_eq_false_iff_ne, ne_eq]
          exact h2
        rw [hb]
        simp [ih]

theorem keys_setKey (k : String) (v : Json) :
    ∀ (l : List (String × Json)),
      (setKey l k v).map Prod.fst =
        if k ∈ l.map Prod.fst then l.map Prod.fst else l.map Prod.fst ++ [k] := by
  intro l
  induction l with
  | nil => simp [setKey]
  | cons p rest ih =>
    obtain ⟨k0, v0⟩ := p
    by_cases h : k0 = k
    · subst h
      simp [setKey]
    · simp only [setKey, if_neg h, List.map_cons, ih, List.mem_cons]
      have hne : ¬ k = k0 := by
        intro hh
        exact h hh.symm
      by_cases h2 : k ∈ rest.map Prod.fst
      · simp [h2, hne]
      · simp [h2, hne]

theorem annotFields_absent (ts : String) (fields : List (String × Json))
    (h1 : "harvest_timestamp" ∉ fields.map Prod.fst)
    (h2 : "source_url" ∉ fields.map Prod.fst)
    (h3 : "agent" ∉ fields.map Prod.fst) :
    annotFields ts fields = fields ++
      [("harvest_timestamp", Json.str ts),
       ("source_url", Json.str MOCK_DATA_URL),
       ("agent", Json.str "ChronicleHarvester")] := by
  have e1 := setKey_absent "harvest_timestamp" (Json.str ts) fields h1
  have h2b : "source_url" ∉
      (fields ++ [("harvest_timestamp", Json.str ts)]).map Prod.fst := by
    simp only [List.map_append, List.mem_append, List.map_cons, List.map_nil,
      List.mem_singleton, not_or]
    exact ⟨h2, by decide⟩
  have e2 := setKey_absent "source_url" (Json.str MOCK_DATA_URL) _ h2b
  have h3b : "agent" ∉
      ((fields ++ [("harvest_timestamp", Json.str ts)]) ++
        [("source_url", Json.str MOCK_DATA_URL)]).map Prod.fst := by
    simp only [List.map_append, List.mem_append, List.map_cons, List.map_nil,
      List.mem_singleton, not_or]
    exact ⟨⟨h3, by decide⟩, by decide⟩
  have e3 := setKey_absent "agent" (Json.str "ChronicleHarvester") _ h3b
  unfold annotFields
  rw [e1, e2, e3]
  simp

theorem lookup_annotFields_ht (ts : String) (fields : List (String × Json)) :
    List.lookup "harvest_timestamp" (annotFields ts fields) = some (Json.str ts) := by
  unfold annotFields
  rw [lookup_setKey_ne "agent" "harvest_timestamp" _ (by decide)]
  rw [lookup_setKey_ne "source_url" "harvest_timestamp" _ (by decide)]
  exact lookup_setKey_self _ _ _

theorem lookup_annotFields_su (ts : String) (fields : List (String × Json)) :
    List.lookup "source_url" (annotFields ts fields) = some (Json.str MOCK_DATA_URL) := by
  unfold annotFields
  rw [lookup_setKey_ne "agent" "source_url" _ (by decide)]
  exact lookup_setKey_self _ _ _

theorem lookup_annotFields_ag (ts : String) (fields : List (String × Json)) :
    List.lookup "agent" (annotFields ts fields) = some (Json.str "ChronicleHarvester") := by
  unfold annotFields
  exact lookup_setKey_self _ _ _

theorem lookup_annotFields_other (ts : String) (fields : List (String × Json))
    (k : String) (n1 : k ≠ "harvest_timestamp") (n2 : k ≠ "source_url")
    (n3 : k ≠ "agent") :
    List.lookup k (annotFields ts fields) = List.lookup k fields := by
  unfold annotFields
  rw [lookup_setKey_ne "agent" k _ n3]
  rw [lookup_setKey_ne "source_url" k _ n2]
  exact lookup_setKey_ne "harvest_timestamp" k _ n1 _

theorem keys_annotFields (ts : String) (fields : List (String × Json)) :
    (annotFields ts fields).map Prod.fst =
      fields.map Prod.fst
        ++ (if "harvest_timestamp" ∈ fields.map Prod.fst then [] else ["harvest_timestamp"])
        ++ (if "source_url" ∈ fields.map Prod.fst then [] else ["source_url"])
        ++ (if "agent" ∈ fields.map Prod.fst then [] else ["agent"]) := by
  unfold annotFields
  rw [keys_setKey, keys_setKey, keys_setKey]
  by_cases a1 : "harvest_timestamp" ∈ fields.map Prod.fst <;>
    by_cases a2 : "source_url" ∈ fields.map Prod.fst <;>
      by_cases a3 : "agent" ∈ fields.map Prod.fst <;>
        simp [a1, a2, a3]

theorem hex8_length (h : String) (hl : 8 ≤ h.data.length) :
    (hex8 h).data.length = 8 := by
  simp only [hex8, List.length_take]
  omega

theorem hex8_all_lowerHex (h : String) (hall : h.data.all isLowerHexChar = true) :
    (hex8 h).data.all isLowerHexChar = true := by
  simp only [hex8]
  exact List.all_eq_true.mpr
    (fun c hc => List.all_eq_true.mp hall c (List.take_subset 8 h.data hc))

theorem file_name_inj (ts1 h1 ts2 h2 : String)
    (l1 : (hex8 h1).data.length = 8) (l2 : (hex8 h2).data.length = 8)
    (heq : file_name ts1 h1 = file_name ts2 h2) :
    ts1 = ts2 ∧ hex8 h1 = hex8 h2 := by
  unfold file_name at heq
  have hd : ("raw_data/" ++ ts1 ++ "-" ++ hex8 h1 ++ ".json").data
      = ("raw_data/" ++ ts2 ++ "-" ++ hex8 h2 ++ ".json").data := by rw [heq]
  simp only [String.data_append, List.append_assoc] at hd
  have hd2 := List.append_cancel_left hd
  have hlen : ("-".data ++ ((hex8 h1).data ++ ".json".data)).length
      = ("-".data ++ ((hex8 h2).data ++ ".json".data)).length := by
    simp only [List.length_append, l1, l2]
  obtain ⟨hts, hrest⟩ := List.append_inj' hd2 hlen
  have hrest2 := List.append_cancel_left hrest
  obtain ⟨hs, _⟩ := List.append_inj hrest2 (l1.trans l2.symm)
  exact ⟨String.ext hts, String.ext hs⟩

/-- C1: for a fetched feed parsing to a JSON array of M mappings, the
handler stores exactly min(M,3) objects, returns status "success" with
an uploaded_files list of length min(M,3) whose i-th path is the key
generated for the i-th selected record (source order), and status code
200, including M = 0. -/
theorem c1_success_min3 (Req : Type) (req : Req) (env : Env) (es : List Json)
    (hclient : env.clientFail = none)
    (hfetch : env.fetch = .body (.ok (.arr es)))
    (hobj : ∀ e ∈ es, e.isObj = true)
    (hup : ∀ i, i < min es.length 3 → env.uploadFail i = none) :
    chronicle_harvester_agent req env =
      .ok (([("status", Json.str "success"),
             ("uploaded_files",
              Json.arr ((expectedPaths env 0 (es.take 3)).map Json.str))], 200),
           expectedStored env 0 (es.take 3)) ∧
    (expectedPaths env 0 (es.take 3)).length = min es.length 3 ∧
    (expectedStored env 0 (es.take 3)).length = min es.length 3 ∧
    expectedPaths env 0 (es.take 3) =
      (List.range (min es.length 3)).map
        (fun i => file_name (env.ingestClock i) (env.uuidHex i)) := by
  have htakelen : (es.take 3).length = min es.length 3 := by
    rw [List.length_take, Nat.min_comm]
  have hloop := harvestLoop_ok env (es.take 3) 0
    (fun e he => hobj e (List.mem_of_mem_take he))
    (fun j hj => by
      rw [Nat.zero_add]
      exact hup j (htakelen ▸ hj))
  refine ⟨?_, ?_, ?_, ?_⟩
  · simp [chronicle_harvester_agent, hclient, hfetch, sliceThree, hloop]
  · rw [expectedPaths_length, htakelen]
  · rw [expectedStored_length, htakelen]
  · rw [expectedPaths_eq_range_map, htakelen]
    apply List.map_congr_left
    intro a _
    rw [Nat.zero_add]

theorem c1_success_min3_witness :
    envA.clientFail = none ∧
    envA.fetch = .body (.ok (.arr esA)) ∧
    (∀ e ∈ esA, e.isObj = true) ∧
    (∀ i, i < min esA.length 3 → envA.uploadFail i = none) ∧
    (chronicle_harvester_agent () envA =
      .ok (([("status", Json.str "success"),
             ("uploaded_files",
              Json.arr ((expectedPaths envA 0 (esA.take 3)).map Json.str))], 200),
           expectedStored envA 0 (esA.take 3)) ∧
     (expectedPaths envA 0 (esA.take 3)).length = min esA.length 3 ∧
     (expectedStored envA 0 (esA.take 3)).length = min esA.length 3 ∧
     expectedPaths envA 0 (esA.take 3) =
       (List.range (min esA.length 3)).map
         (fun i => file_name (envA.ingestClock i) (envA.uuidHex i))) :=
  ⟨rfl, rfl, by decide, fun _ _ => rfl,
   c1_success_min3 Unit () envA esA rfl rfl (by decide) (fun _ _ => rfl)⟩

/-- C4: when the fetch raises a transport error or a non-2xx status
(`raise_for_status`), the handler returns the error mapping with
status code 500 and stores zero objects. -/
theorem c4_request_error (Req : Type) (req : Req) (env : Env) (m : String)
    (hclient : env.clientFail = none)
    (hfetch : env.fetch = .requestError m) :
    chronicle_harvester_agent req env =
      .ok (([("status", Json.str "error"),
             ("message", Json.str ("HTTP request failed: " ++ m))], 500), []) := by
  simp [chronicle_harvester_agent, hclient, hfetch]

theorem c4_request_error_witness :
    envReqErr.clientFail = none ∧
    envReqErr.fetch = .requestError "500 Server Error" ∧
    chronicle_harvester_agent () envReqErr =
      .ok (([("status", Json.str "error"),
             ("message",
              Json.str ("HTTP request failed: " ++ "500 Server Error"))], 500), []) :=
  ⟨rfl, rfl, c4_request_error Unit () envReqErr "500 Server Error" rfl rfl⟩

/-- C7: every generated object key has the shape
`raw_data/<timestamp>-<8 lowercase hex chars>.json` (given that
`uuid.uuid4().hex` is 32 lowercase hex characters), and two keys built
from timestamps or 8-character suffixes that differ are distinct. -/
theorem c7_object_key_pattern :
    (∀ ts h : String, h.data.length = 32 → h.data.all isLowerHexChar = true →
      file_name ts h = "raw_data/" ++ ts ++ "-" ++ hex8 h ++ ".json" ∧
      (hex8 h).data.length = 8 ∧ (hex8 h).data.all isLowerHexChar = true) ∧
    (∀ ts1 h1 ts2 h2 : String, (hex8 h1).data.length = 8 →
      (hex8 h2).data.length = 8 → (ts1 ≠ ts2 ∨ hex8 h1 ≠ hex8 h2) →
      file_name ts1 h1 ≠ file_name ts2 h2) := by
  constructor
  · intro ts h hlen hall
    exact ⟨rfl, hex8_length h (by omega), hex8_all_lowerHex h hall⟩
  · intro ts1 h1 ts2 h2 l1 l2 hne heq
    obtain ⟨hts, hs⟩ := file_name_inj ts1 h1 ts2 h2 l1 l2 heq
    rcases hne with hne | hne
    · exact hne hts
    · exact hne hs

theorem c7_object_key_pattern_witness :
    ("00112233445566778899aabbccddeeff" : String).data.length = 32 ∧
    ("00112233445566778899aabbccddeeff" : String).data.all isLowerHexChar = true ∧
    (file_name "2025-06-23T10:00:00" "00112233445566778899aabbccddeeff" =
      "raw_data/" ++ "2025-06-23T10:00:00" ++ "-" ++
        hex8 "00112233445566778899aabbccddeeff" ++ ".json" ∧
     (hex8 "00112233445566778899aabbccddeeff").data.length = 8 ∧
     (hex8 "00112233445566778899aabbccddeeff").data.all isLowerHexChar = true) ∧
    file_name "2025-06-23T10:00:00" "00112233445566778899aabbccddeeff" ≠
      file_name "2025-06-23T10:00:01" "00112233445566778899aabbccddeeff" :=
  ⟨by decide, by decide,
   c7_object_key_pattern.1 "2025-06-23T10:00:00" "00112233445566778899aabbccddeeff"
     (by decide) (by decide),
   c7_object_key_pattern.2 "2025-06-23T10:00:00" "00112233445566778899aabbccddeeff"
     "2025-06-23T10:00:01" "00112233445566778899aabbccddeeff"
     (by decide) (by decide) (Or.inl (by decide))⟩

/-- C8: the incoming request value never influences the computation:
with the same environment (fetch response, clock readings, uuid
strings, storage behaviour), any two request values give identical
returned results and identical stored objects. -/
theorem c8_request_independent (Req1 Req2 : Type) (r1 : Req1) (r2 : Req2)
    (env : Env) :
    chronicle_harvester_agent r1 env = chronicle_harvester_agent r2 env := rfl

/-- C2: each selected record is stored with exactly its original
fields and values plus the three injected fields `harvest_timestamp`
(the capture-time reading), `source_url` (the fixed endpoint) and
`agent` ("ChronicleHarvester"), and nothing else, provided the source
record does not already use the injected keys. -/
theorem c2_stored_content (Req : Type) (req : Req) (env : Env)
    (es pre post : List Json) (fields : List (String × Json))
    (hclient : env.clientFail = none)
    (hfetch : env.fetch = .body (.ok (.arr es)))
    (hobj : ∀ e ∈ es, e.isObj = true)
    (hup : ∀ i, i < min es.length 3 → env.uploadFail i = none)
    (hsplit : es.take 3 = pre ++ Json.obj fields :: post)
    (k1 : "harvest_timestamp" ∉ fields.map Prod.fst)
    (k2 : "source_url" ∉ fields.map Prod.fst)
    (k3 : "agent" ∉ fields.map Prod.fst) :
    chronicle_harvester_agent req env =
      .ok (([("status", Json.str "success"),
             ("uploaded_files",
              Json.arr ((expectedPaths env 0 (es.take 3)).map Json.str))], 200),
        expectedStored env 0 pre ++
          ⟨file_name (env.ingestClock pre.length) (env.uuidHex pre.length),
           Json.obj (fields ++
             [("harvest_timestamp", Json.str (env.annotClock pre.length)),
              ("source_url", Json.str MOCK_DATA_URL),
              ("agent", Json.str "ChronicleHarvester")])⟩ ::
          expectedStored env (pre.length + 1) post) := by
  have htakelen : (es.take 3).length = min es.length 3 := by
    rw [List.length_take, Nat.min_comm]
  have hloop := harvestLoop_ok env (es.take 3) 0
    (fun e he => hobj e (List.mem_of_mem_take he))
    (fun j hj => by
      rw [Nat.zero_add]
      exact hup j (htakelen ▸ hj))
  have hstored : expectedStored env 0 (es.take 3) =
      expectedStored env 0 pre ++
        ⟨file_name (env.ingestClock pre.length) (env.uuidHex pre.length),
         Json.obj (fields ++
           [("harvest_timestamp", Json.str (env.annotClock pre.length)),
            ("source_url", Json.str MOCK_DATA_URL),
            ("agent", Json.str "ChronicleHarvester")])⟩ ::
        expectedStored env (pre.length + 1) post := by
    rw [hsplit, expectedStored_append, Nat.zero_add]
    simp only [expectedStored, annotateObj]
    rw [annotFields_absent (env.annotClock pre.length) fields k1 k2 k3]
  rw [← hstored]
  simp [chronicle_harvester_agent, hclient, hfetch, sliceThree, hloop]

theorem c2_stored_content_witness :
    envA.clientFail = none ∧
    envA.fetch = .body (.ok (.arr esA)) ∧
    (∀ e ∈ esA, e.isObj = true) ∧
    (∀ i, i < min esA.length 3 → envA.uploadFail i = none) ∧
    esA.take 3 = [Json.obj [("id", Json.num 1)]] ++
      Json.obj [("title", Json.str "a")] :: [Json.obj []] ∧
    "harvest_timestamp" ∉ [("title", Json.str "a")].map Prod.fst ∧
    "source_url" ∉ [("title", Json.str "a")].map Prod.fst ∧
    "agent" ∉ [("title", Json.str "a")].map Prod.fst ∧
    chronicle_harvester_agent () envA =
      .ok (([("status", Json.str "success"),
             ("uploaded_files",
              Json.arr ((expectedPaths envA 0 (esA.take 3)).map Json.str))], 200),
        expectedStored envA 0 [Json.obj [("id", Json.num 1)]] ++
          ⟨file_name (envA.ingestClock 1) (envA.uuidHex 1),
           Json.obj ([("title", Json.str "a")] ++
             [("harvest_timestamp", Json.str (envA.annotClock 1)),
              ("source_url", Json.str MOCK_DATA_URL),
              ("agent", Json.str "ChronicleHarvester")])⟩ ::
          expectedStored envA 2 [Json.obj []]) :=
  ⟨rfl, rfl, by decide, fun _ _ => rfl, rfl, by decide, by decide, by decide,
   c2_stored_content Unit () envA esA
     [Json.obj [("id", Json.num 1)]] [Json.obj []] [("title", Json.str "a")]
     rfl rfl (by decide) (fun _ _ => rfl) rfl
     (by decide) (by decide) (by decide)⟩

/-- C10: the annotation step assigns the three injected keys with
Python dictionary update semantics: a source-supplied value under
`harvest_timestamp`, `source_url` or `agent` is overwritten in place
(the key keeps its position, its value becomes the injected one), every
other key keeps its original value, and only the injected keys missing
from the record are appended. -/
theorem c10_annotation_overwrites (ts : String) (fields : List (String × Json)) :
    ∃ gs, annotate ts (Json.obj fields) = .ok (Json.obj gs) ∧
      List.lookup "harvest_timestamp" gs = some (Json.str ts) ∧
      List.lookup "source_url" gs = some (Json.str MOCK_DATA_URL) ∧
      List.lookup "agent" gs = some (Json.str "ChronicleHarvester") ∧
      (∀ k : String, k ≠ "harvest_timestamp" → k ≠ "source_url" → k ≠ "agent" →
        List.lookup k gs = List.lookup k fields) ∧
      gs.map Prod.fst =
        fields.map Prod.fst
          ++ (if "harvest_timestamp" ∈ fields.map Prod.fst then []
              else ["harvest_timestamp"])
          ++ (if "source_url" ∈ fields.map Prod.fst then [] else ["source_url"])
          ++ (if "agent" ∈ fields.map Prod.fst then [] else ["agent"]) :=
  ⟨annotFields ts fields, rfl, lookup_annotFields_ht ts fields,
   lookup_annotFields_su ts fields, lookup_annotFields_ag ts fields,
   fun k n1 n2 n3 => lookup_annotFields_other ts fields k n1 n2 n3,
   keys_annotFields ts fields⟩

theorem c10_annotation_overwrites_witness :
    ∃ gs, annotate "2025-06-23T10:00:00"
        (Json.obj [("agent", Json.str "imposter"), ("id", Json.num 7)]) =
          .ok (Json.obj gs) ∧
      List.lookup "harvest_timestamp" gs = some (Json.str "2025-06-23T10:00:00") ∧
      List.lookup "source_url" gs = some (Json.str MOCK_DATA_URL) ∧
      List.lookup "agent" gs = some (Json.str "ChronicleHarvester") ∧
      (∀ k : String, k ≠ "harvest_timestamp" → k ≠ "source_url" → k ≠ "agent" →
        List.lookup k gs =
          List.lookup k [("agent", Json.str "imposter"), ("id", Json.num 7)]) ∧
      gs.map Prod.fst =
        [("agent", Json.str "imposter"), ("id", Json.num 7)].map Prod.fst
          ++ (if "harvest_timestamp" ∈
                [("agent", Json.str "imposter"), ("id", Json.num 7)].map Prod.fst
              then [] else ["harvest_timestamp"])
          ++ (if "source_url" ∈
                [("agent", Json.str "imposter"), ("id", Json.num 7)].map Prod.fst
              then [] else ["source_url"])
          ++ (if "agent" ∈
                [("agent", Json.str "imposter"), ("id", Json.num 7)].map Prod.fst
              then [] else ["agent"]) :=
  c10_annotation_overwrites "2025-06-23T10:00:00"
    [("agent", Json.str "imposter"), ("id", Json.num 7)]

/-- C3 counterexample: `storage.Client(project=...)` is executed on
line 50 of `main.py`, before the `try` on line 52, so a storage-client
construction failure is not caught: the invocation raises instead of
returning a `\x7bstatus: "error"\x7d` result. -/
theorem c3_counterexample :
    chronicle_harvester_agent () envClientFail =
      .error "storage client construction failed" := rfl

theorem c9aux_error_shape (m : String) :
    (List.lookup "status"
        [("status", Json.str "error"), ("message", Json.str m)] =
        some (Json.str "success") ∨
     List.lookup "status"
        [("status", Json.str "error"), ("message", Json.str m)] =
        some (Json.str "error")) ∧
    (List.lookup "status"
        [("status", Json.str "error"), ("message", Json.str m)] =
        some (Json.str "success") ↔ (500 : Nat) = 200) ∧
    (List.lookup "status"
        [("status", Json.str "error"), ("message", Json.str m)] =
        some (Json.str "error") ↔ (500 : Nat) = 500) ∧
    ((500 : Nat) = 200 → ∃ files : List String,
      List.lookup "uploaded_files"
        [("status", Json.str "error"), ("message", Json.str m)] =
        some (Json.arr (files.map Json.str))) ∧
    ((500 : Nat) = 500 → ∃ m2 : String,
      List.lookup "message"
        [("status", Json.str "error"), ("message", Json.str m)] =
        some (Json.str m2)) := by
  refine ⟨Or.inr ?_, ?_, ?_, ?_, fun _ => ⟨m, ?_⟩⟩ <;> simp [List.lookup]

theorem c9aux_success_shape (files : List String) :
    (List.lookup "status"
        [("status", Json.str "success"),
         ("uploaded_files", Json.arr (files.map Json.str))] =
        some (Json.str "success") ∨
     List.lookup "status"
        [("status", Json.str "success"),
         ("uploaded_files", Json.arr (files.map Json.str))] =
        some (Json.str "error")) ∧
    (List.lookup "status"
        [("status", Json.str "success"),
         ("uploaded_files", Json.arr (files.map Json.str))] =
        some (Json.str "success") ↔ (200 : Nat) = 200) ∧
    (List.lookup "status"
        [("status", Json.str "success"),
         ("uploaded_files", Json.arr (files.map Json.str))] =
        some (Json.str "error") ↔ (200 : Nat) = 500) ∧
    ((200 : Nat) = 200 → ∃ fs : List String,
      List.lookup "uploaded_files"
        [("status", Json.str "success"),
         ("uploaded_files", Json.arr (files.map Json.str))] =
        some (Json.arr (fs.map Json.str))) ∧
    ((200 : Nat) = 500 → ∃ m2 : String,
      List.lookup "message"
        [("status", Json.str "success"),
         ("uploaded_files", Json.arr (files.map Json.str))] =
        some (Json.str m2)) := by
  refine ⟨Or.inl ?_, ?_, ?_, fun _ => ⟨files, ?_⟩, ?_⟩ <;> simp [List.lookup]

/-- C9: every returned value pairs a mapping with code 200 or 500; the
status field is "success" exactly when the code is 200 (and then an
uploaded_files list is present) and "error" exactly when the code is
500 (and then a message string is present). -/
theorem c9_result_shape (Req : Type) (req : Req) (env : Env)
    (d : List (String × Json)) (c : Nat) (stored : List StoredObject)
    (h : chronicle_harvester_agent req env = .ok ((d, c), stored)) :
    (List.lookup "status" d = some (Json.str "success") ∨
     List.lookup "status" d = some (Json.str "error")) ∧
    (List.lookup "status" d = some (Json.str "success") ↔ c = 200) ∧
    (List.lookup "status" d = some (Json.str "error") ↔ c = 500) ∧
    (c = 200 → ∃ files : List String,
      List.lookup "uploaded_files" d = some (Json.arr (files.map Json.str))) ∧
    (c = 500 → ∃ m2 : String,
      List.lookup "message" d = some (Json.str m2)) := by
  cases hcf : env.clientFail with
  | some m => simp [chronicle_harvester_agent, hcf] at h
  | none =>
    cases hf : env.fetch with
    | requestError m =>
      simp only [chronicle_harvester_agent, hcf, hf, Except.ok.injEq,
        Prod.mk.injEq] at h
      obtain ⟨⟨hd, hc⟩, hst⟩ := h
      subst hd
      subst hc
      exact c9aux_error_shape _
    | body p =>
      cases p with
      | error m =>
        simp only [chronicle_harvester_agent, hcf, hf, Except.ok.injEq,
          Prod.mk.injEq] at h
        obtain ⟨⟨hd, hc⟩, hst⟩ := h
        subst hd
        subst hc
        exact c9aux_error_shape _
      | ok j =>
        cases hs : sliceThree j with
        | error m =>
          simp only [chronicle_harvester_agent, hcf, hf, hs, Except.ok.injEq,
            Prod.mk.injEq] at h
          obtain ⟨⟨hd, hc⟩, hst⟩ := h
          subst hd
          subst hc
          exact c9aux_error_shape _
        | ok entries =>
          obtain ⟨⟨r, st⟩, hl⟩ : ∃ p, harvestLoop env 0 entries = p := ⟨_, rfl⟩
          cases r with
          | ok files =>
            simp only [chronicle_harvester_agent, hcf, hf, hs, hl,
              Except.ok.injEq, Prod.mk.injEq] at h
            obtain ⟨⟨hd, hc⟩, hst⟩ := h
            subst hd
            subst hc
            exact c9aux_success_shape _
          | error m =>
            simp only [chronicle_harvester_agent, hcf, hf, hs, hl,
              Except.ok.injEq, Prod.mk.injEq] at h
            obtain ⟨⟨hd, hc⟩, hst⟩ := h
            subst hd
            subst hc
            exact c9aux_error_shape _

theorem c9_result_shape_witness :
    chronicle_harvester_agent () envReqErr =
      .ok (([("status", Json.str "error"),
             ("message",
              Json.str ("HTTP request failed: " ++ "500 Server Error"))], 500), []) ∧
    ((List.lookup "status"
        [("status", Json.str "error"),
         ("message", Json.str ("HTTP request failed: " ++ "500 Server Error"))] =
        some (Json.str "success") ∨
      List.lookup "status"
        [("status", Json.str "error"),
         ("message", Json.str ("HTTP request failed: " ++ "500 Server Error"))] =
        some (Json.str "error")) ∧
     (List.lookup "status"
        [("status", Json.str "error"),
         ("message", Json.str ("HTTP request failed: " ++ "500 Server Error"))] =
        some (Json.str "success") ↔ (500 : Nat) = 200) ∧
     (List.lookup "status"
        [("status", Json.str "error"),
         ("message", Json.str ("HTTP request failed: " ++ "500 Server Error"))] =
        some (Json.str "error") ↔ (500 : Nat) = 500) ∧
     ((500 : Nat) = 200 → ∃ files : List String,
       List.lookup "uploaded_files"
         [("status", Json.str "error"),
          ("message", Json.str ("HTTP request failed: " ++ "500 Server Error"))] =
         some (Json.arr (files.map Json.str))) ∧
     ((500 : Nat) = 500 → ∃ m2 : String,
       List.lookup "message"
         [("status", Json.str "error"),
          ("message", Json.str ("HTTP request failed: " ++ "500 Server Error"))] =
         some (Json.str m2))) :=
  ⟨rfl,
   c9_result_shape Unit () envReqErr
     [("status", Json.str "error"),
      ("message", Json.str ("HTTP request failed: " ++ "500 Server Error"))]
     500 [] rfl⟩

/-- C3 (amended): every exception raised inside the `try` block —
JSON decode failure, slicing or annotation failure, storage-write
failure — is caught and converted into a returned error mapping with
status code 500, and no exception raised there escapes; but a
storage-client construction failure happens before the `try` and
propagates out of the handler uncaught. -/
theorem c3_try_block_catches :
    (∀ (Req : Type) (req : Req) (env : Env), env.clientFail = none →
      ∃ d c stored, chronicle_harvester_agent req env = .ok ((d, c), stored) ∧
        (c = 200 ∨ (c = 500 ∧
          List.lookup "status" d = some (Json.str "error") ∧
          ∃ m2, List.lookup "message" d = some (Json.str m2)))) ∧
    (∀ (Req : Type) (req : Req) (env : Env) (m : String),
      env.clientFail = some m →
      chronicle_harvester_agent req env = .error m) := by
  constructor
  · intro Req req env hcf
    cases hf : env.fetch with
    | requestError m =>
      exact ⟨[("status", Json.str "error"),
              ("message", Json.str ("HTTP request failed: " ++ m))], 500, [],
        by simp [chronicle_harvester_agent, hcf, hf],
        Or.inr ⟨rfl, by simp [List.lookup],
          ⟨"HTTP request failed: " ++ m, by simp [List.lookup]⟩⟩⟩
    | body p =>
      cases p with
      | error m =>
        exact ⟨[("status", Json.str "error"),
                ("message", Json.str ("An unexpected error occurred: " ++ m))], 500, [],
          by simp [chronicle_harvester_agent, hcf, hf],
          Or.inr ⟨rfl, by simp [List.lookup],
            ⟨"An unexpected error occurred: " ++ m, by simp [List.lookup]⟩⟩⟩
      | ok j =>
        cases hs : sliceThree j with
        | error m =>
          exact ⟨[("status", Json.str "error"),
                  ("message", Json.str ("An unexpected error occurred: " ++ m))], 500, [],
            by simp [chronicle_harvester_agent, hcf, hf, hs],
            Or.inr ⟨rfl, by simp [List.lookup],
              ⟨"An unexpected error occurred: " ++ m, by simp [List.lookup]⟩⟩⟩
        | ok entries =>
          obtain ⟨⟨r, st⟩, hl⟩ : ∃ p, harvestLoop env 0 entries = p := ⟨_, rfl⟩
          cases r with
          | ok files =>
            exact ⟨[("status", Json.str "success"),
                    ("uploaded_files", Json.arr (files.map Json.str))], 200, st,
              by simp [chronicle_harvester_agent, hcf, hf, hs, hl], Or.inl rfl⟩
          | error m =>
            exact ⟨[("status", Json.str "error"),
                    ("message", Json.str ("An unexpected error occurred: " ++ m))],
              500, st,
              by simp [chronicle_harvester_agent, hcf, hf, hs, hl],
              Or.inr ⟨rfl, by simp [List.lookup],
                ⟨"An unexpected error occurred: " ++ m, by simp [List.lookup]⟩⟩⟩
  · intro Req req env m hcf
    simp [chronicle_harvester_agent, hcf]

theorem c3_try_block_catches_witness :
    (envReqErr.clientFail = none ∧
     ∃ d c stored, chronicle_harvester_agent () envReqErr = .ok ((d, c), stored) ∧
       (c = 200 ∨ (c = 500 ∧
         List.lookup "status" d = some (Json.str "error") ∧
         ∃ m2, List.lookup "message" d = some (Json.str m2)))) ∧
    (envClientFail.clientFail = some "storage client construction failed" ∧
     chronicle_harvester_agent () envClientFail =
       .error "storage client construction failed") :=
  ⟨⟨rfl, c3_try_block_catches.1 Unit () envReqErr rfl⟩,
   ⟨rfl, c3_try_block_catches.2 Unit () envClientFail
     "storage client construction failed" rfl⟩⟩

/-- C5: if annotating or storing the k-th selected record raises, the
k objects stored before the failure stay persisted, the invocation
returns only the error mapping (no uploaded paths) with code 500, and
a success status always means every selected record was stored. -/
theorem c5_partial_persistence :
    (∀ (Req : Type) (req : Req) (env : Env) (es pre post : List Json)
        (e : Json) (m : String),
      env.clientFail = none →
      env.fetch = .body (.ok (.arr es)) →
      es.take 3 = pre ++ e :: post →
      (∀ x ∈ pre, x.isObj = true) →
      (∀ j, j < pre.length → env.uploadFail j = none) →
      (e.isObj = false ∨ env.uploadFail pre.length = some m) →
      ∃ m2, chronicle_harvester_agent req env =
        .ok (([("status", Json.str "error"),
               ("message",
                Json.str ("An unexpected error occurred: " ++ m2))], 500),
             expectedStored env 0 pre)) ∧
    (∀ (Req : Type) (req : Req) (env : Env) (d : List (String × Json))
        (c : Nat) (stored : List StoredObject) (j : Json) (entries : List Json),
      chronicle_harvester_agent req env = .ok ((d, c), stored) →
      List.lookup "status" d = some (Json.str "success") →
      env.fetch = .body (.ok j) →
      sliceThree j = .ok entries →
      stored.length = entries.length ∧
      d = [("status", Json.str "success"),
           ("uploaded_files",
            Json.arr ((stored.map StoredObject.path).map Json.str))]) := by
  constructor
  · intro Req req env es pre post e m hclient hfetch hsplit hobjpre hup hfail
    obtain ⟨m2, hloop⟩ := harvestLoop_fail env pre e post 0 m hobjpre
      (fun j hj => by
        rw [Nat.zero_add]
        exact hup j hj)
      (by
        rcases hfail with hf | hf
        · exact Or.inl hf
        · refine Or.inr ?_
          rw [Nat.zero_add]
          exact hf)
    exact ⟨m2, by
      simp [chronicle_harvester_agent, hclient, hfetch, sliceThree, hsplit, hloop]⟩
  · intro Req req env d c stored j entries h hstat hfetch hslice
    cases hcf : env.clientFail with
    | some m => simp [chronicle_harvester_agent, hcf] at h
    | none =>
      simp only [chronicle_harvester_agent, hcf, hfetch, hslice] at h
      obtain ⟨⟨r, st⟩, hl⟩ : ∃ p, harvestLoop env 0 entries = p := ⟨_, rfl⟩
      cases r with
      | error m =>
        rw [hl] at h
        simp only [Except.ok.injEq, Prod.mk.injEq] at h
        obtain ⟨⟨hd, hc⟩, hst⟩ := h
        subst hd
        simp [List.lookup] at hstat
      | ok files =>
        rw [hl] at h
        simp only [Except.ok.injEq, Prod.mk.injEq] at h
        obtain ⟨⟨hd, hc⟩, hst⟩ := h
        subst hd
        subst hst
        obtain ⟨hfiles, hlen⟩ := harvestLoop_files env entries 0 files st hl
        subst hfiles
        exact ⟨hlen, rfl⟩

theorem c5_partial_persistence_witness :
    (envB.clientFail = none ∧
     envB.fetch = .body (.ok (.arr esB)) ∧
     esB.take 3 = [Json.obj [("id", Json.num 1)]] ++
       Json.obj [("id", Json.num 2)] :: [Json.obj [("id", Json.num 3)]] ∧
     (∀ x ∈ [Json.obj [("id", Json.num 1)]], x.isObj = true) ∧
     (∀ j, j < [Json.obj [("id", Json.num 1)]].length →
       envB.uploadFail j = none) ∧
     ((Json.obj [("id", Json.num 2)]).isObj = false ∨
       envB.uploadFail [Json.obj [("id", Json.num 1)]].length =
         some "upload failed") ∧
     ∃ m2, chronicle_harvester_agent () envB =
       .ok (([("status", Json.str "error"),
              ("message",
               Json.str ("An unexpected error occurred: " ++ m2))], 500),
            expectedStored envB 0 [Json.obj [("id", Json.num 1)]])) ∧
    (chronicle_harvester_agent () envA =
      .ok (([("status", Json.str "success"),
             ("uploaded_files",
              Json.arr ((expectedPaths envA 0 (esA.take 3)).map Json.str))], 200),
           expectedStored envA 0 (esA.take 3)) ∧
     (expectedStored envA 0 (esA.take 3)).length = (esA.take 3).length ∧
     [("status", Json.str "success"),
      ("uploaded_files",
       Json.arr ((expectedPaths envA 0 (esA.take 3)).map Json.str))] =
       [("status", Json.str "success"),
        ("uploaded_files",
         Json.arr ((((expectedStored envA 0 (esA.take 3)).map
           StoredObject.path)).map Json.str))]) :=
  ⟨⟨rfl, rfl, rfl, by decide, by decide, Or.inr rfl,
    c5_partial_persistence.1 Unit () envB esB
      [Json.obj [("id", Json.num 1)]] [Json.obj [("id", Json.num 3)]]
      (Json.obj [("id", Json.num 2)]) "upload failed"
      rfl rfl rfl (by decide) (by decide) (Or.inr rfl)⟩,
   ⟨rfl,
    c5_partial_persistence.2 Unit () envA
      [("status", Json.str "success"),
       ("uploaded_files",
        Json.arr ((expectedPaths envA 0 (esA.take 3)).map Json.str))]
      200 (expectedStored envA 0 (esA.take 3)) (Json.arr esA) (esA.take 3)
      rfl rfl rfl rfl⟩⟩

/-- C6 counterexample: the body parses to the JSON string `""`, which
is not an array of mappings, yet slicing and iterating it yields zero
entries, so the handler returns status "success" with code 200 and an
empty uploaded_files list instead of the claimed error with 500. -/
theorem c6_counterexample :
    chronicle_harvester_agent () envEmptyStr =
      .ok (([("status", Json.str "success"),
             ("uploaded_files", Json.arr [])], 200), []) := rfl

/-- C6 (amended): a fetch whose 2xx body is malformed JSON, or parses
to a value that raises during slicing or annotation — any non-array
non-string value, a nonempty string, or an array with a non-mapping
among its first three elements — yields the error mapping with status
code 500.  (An array whose first three elements are mappings succeeds
whatever comes later, and the empty JSON string yields success 200
with zero files: see the counterexample.) -/
theorem c6_malformed_500 (Req : Type) (req : Req) (env : Env)
    (p : Except String Json)
    (hclient : env.clientFail = none)
    (hfetch : env.fetch = .body p)
    (hbad : match p with
      | .error _ => True
      | .ok j => malformedBody j = true) :
    ∃ m stored, chronicle_harvester_agent req env =
      .ok (([("status", Json.str "error"),
             ("message",
              Json.str ("An unexpected error occurred: " ++ m))], 500), stored) := by
  cases p with
  | error m =>
    exact ⟨m, [], by simp [chronicle_harvester_agent, hclient, hfetch]⟩
  | ok j =>
    cases j with
    | null =>
      exact ⟨"TypeError: value does not support slicing", [],
        by simp [chronicle_harvester_agent, hclient, hfetch, sliceThree]⟩
    | bool b =>
      exact ⟨"TypeError: value does not support slicing", [],
        by simp [chronicle_harvester_agent, hclient, hfetch, sliceThree]⟩
    | num n =>
      exact ⟨"TypeError: value does not support slicing", [],
        by simp [chronicle_harvester_agent, hclient, hfetch, sliceThree]⟩
    | obj fields =>
      exact ⟨"TypeError: value does not support slicing", [],
        by simp [chronicle_harvester_agent, hclient, hfetch, sliceThree]⟩
    | str s =>
      obtain ⟨c, cs, hdata⟩ : ∃ c cs, s.data = c :: cs := by
        cases hh : s.data with
        | nil =>
          simp only [malformedBody, hh, List.isEmpty_nil, Bool.not_true] at hbad
          exact Bool.noConfusion hbad
        | cons c cs => exact ⟨c, cs, rfl⟩
      have hnon : ∃ e ∈ (s.data.take 3).map
          (fun ch => Json.str (String.singleton ch)), e.isObj = false := by
        rw [hdata]
        exact ⟨Json.str (String.singleton c), by simp, by simp [Json.isObj]⟩
      obtain ⟨m, stored, hl⟩ := harvestLoop_err_of_nonobj env _ 0 hnon
      exact ⟨m, stored,
        by simp only [chronicle_harvester_agent, hclient, hfetch, sliceThree, hl]⟩
    | arr es =>
      have hnon : ∃ e ∈ es.take 3, e.isObj = false := by
        simp only [malformedBody, List.any_eq_true, Bool.not_eq_true'] at hbad
        exact hbad
      obtain ⟨m, stored, hl⟩ := harvestLoop_err_of_nonobj env (es.take 3) 0 hnon
      exact ⟨m, stored,
        by simp [chronicle_harvester_agent, hclient, hfetch, sliceThree, hl]⟩

theorem c6_malformed_500_witness :
    envObjBody.clientFail = none ∧
    envObjBody.fetch = .body (.ok (.obj [])) ∧
    malformedBody (.obj []) = true ∧
    ∃ m stored, chronicle_harvester_agent () envObjBody =
      .ok (([("status", Json.str "error"),
             ("message",
              Json.str ("An unexpected error occurred: " ++ m))], 500), stored) :=
  ⟨rfl, rfl, by decide,
   c6_malformed_500 Unit () envObjBody (.ok (.obj [])) rfl rfl (by decide)⟩
